import Mathlib

/-!
# Shallow embedding of the Proactive Daily Update Agent backend

This file embeds, in Lean 4, the parts of the backend relevant to the
staged-entry lifecycle (`app/services/daily_update.py`), the conversational
extraction strategy (`app/services/ai_strategies/daily_update.py`) and the
fixed-window rate limiter (`app/services/decorators/rate_limit.py`), and
proves properties of that embedding.

Modelling conventions:
* JSON scalar values (`structured_data` contents) are the inductive `Value`;
  JSON arrays/objects nested inside `structured_data` are omitted because no
  modelled code path inspects them (the `tags` field is serialized
  opaquely).
* `datetime` objects are epoch-second integers with an "aware" flag; the
  ambient clock (`datetime.utcnow()`) is an explicit `now : Int` argument.
* the SQLAlchemy session is an explicit `DB` state record; `db.commit` /
  `db.flush` become state threading and `db.rollback` becomes returning the
  pre-call state.
* `HTTPException` is an explicit error value carried in `Except`.
-/

/-- A JSON-ish scalar value as stored in `structured_data` (JSONB column),
plus a datetime constructor for Python `datetime` objects flowing through
the promotion helpers. `vdt t aware`: epoch seconds and tz-awareness. -/
inductive Value where
  | vstr (s : String)
  | vnum (q : ℚ)
  | vbool (b : Bool)
  | vdt (t : Int) (aware : Bool)
  | vnull
deriving DecidableEq, Repr

/-- Python truthiness of a `Value` (`if value:`). -/
def Value.truthy : Value → Bool
  | .vstr s => !(s == "")
  | .vnum q => !(q == 0)
  | .vbool b => b
  | .vdt _ _ => true
  | .vnull => false

/-- `structured_data`: a JSON object modelled as an association list. -/
abbrev SData := List (String × Value)

/-- Python `dict.get(k)`: first binding of `k`, if any. -/
def SData.get (d : SData) (k : String) : Option Value :=
  (d.find? (fun p => p.1 == k)).map (·.2)

/-- Python `dict.get(k, default)`. -/
def SData.getD (d : SData) (k : String) (v : Value) : Value :=
  (d.get k).getD v

/-- Python `x or default` applied to the result of `dict.get(k)`:
falls back when the key is absent or its value is falsy. -/
def pyOr (v : Option Value) (d : Value) : Value :=
  match v with
  | some x => if x.truthy then x else d
  | none => d

/-- A minimal JSON serializer standing in for `json.dumps` on the scalar
values this model carries (used only for the opaque `tags` column). -/
def jsonDumps : Value → String
  | .vstr s => "\x22" ++ s ++ "\x22"
  | .vnum q => toString q
  | .vbool b => if b then "true" else "false"
  | .vdt t _ => toString t
  | .vnull => "null"

/-- `json.dumps(data.get("tags", [])) if data.get("tags") else None`. -/
def tagsField (d : SData) : Option String :=
  match d.get "tags" with
  | some v => if v.truthy then some (jsonDumps v) else none
  | none => none

section DataModel

/-- Status column of `pending_updates` (`UpdateStatus` enum). -/
inductive UpdateStatus where
  | pending
  | accepted
  | rejected
deriving DecidableEq, Repr

/-- A row of the `pending_updates` table (`PendingUpdate` model).  The
`category` column is a string (enum-typed in the schema, but the service
dispatches on string equality). -/
structure PendingEntry where
  id : Nat
  user_id : Nat
  category : String
  summary : String
  raw_text : Option String
  structured_data : SData
  status : UpdateStatus
  session_id : Option Nat
deriving DecidableEq, Repr

/-- One `{role, content, timestamp}` record of `conversation_history`. -/
structure ChatMsg where
  role : String
  content : String
  timestamp : Int
deriving DecidableEq, Repr

/-- A row of the `daily_update_sessions` table (`DailyUpdateSession`). -/
structure SessionRow where
  id : Nat
  user_id : Nat
  started_at : Int
  ended_at : Option Int
  is_active : Bool
  categories_covered : List String
  conversation_history : List ChatMsg
deriving DecidableEq, Repr

/-- A row of the `tasks` table as built by `_create_task_from_pending`. -/
structure TaskRow where
  id : Nat
  user_id : Nat
  title : String
  description : Option Value
  due_date : Option Value
  priority : Value
  status : Value
  is_completed : Value
  estimated_duration : Option Value
  tags : Option String
  parent_task_id : Option Value
deriving DecidableEq, Repr

/-- A row of the `expenses` table as built by `_create_expense_from_pending`. -/
structure ExpenseRow where
  id : Nat
  user_id : Nat
  amount : Value
  currency : Value
  category : Value
  subcategory : Option Value
  merchant : Value
  description : Value
  date : Value
  payment_method : Option Value
  is_recurring : Value
  tags : Option String
deriving DecidableEq, Repr

/-- A row of the `events` table as built by `_create_event_from_pending`. -/
structure EventRow where
  id : Nat
  user_id : Nat
  title : String
  description : Option Value
  start_time : Value
  end_time : Value
  location : Option Value
  tags : Option String
  is_all_day : Value
  reminder_minutes : Option Value
  color : Option Value
deriving DecidableEq, Repr

/-- A row of the `journal_entries` table as built by
`_create_journal_from_pending`. -/
structure JournalRow where
  id : Nat
  user_id : Nat
  title : String
  content : Value
  mood : Option Value
  weather : Option Value
  location : Option Value
deriving DecidableEq, Repr

/-- The database state visible to the daily-update service: the staging
table, the session table and the four domain tables.  `next_id` models the
id generator (uuid defaults in the source). -/
structure DB where
  pending : List PendingEntry
  sessions : List SessionRow
  tasks : List TaskRow
  expenses : List ExpenseRow
  events : List EventRow
  journals : List JournalRow
  next_id : Nat
deriving DecidableEq, Repr

/-- An `HTTPException` value: status code and detail message. -/
structure HTTPError where
  code : Nat
  detail : String
deriving DecidableEq, Repr

deriving instance DecidableEq for Except

end DataModel

section DatetimeModel

/-- Two decimal digits. -/
def d2 (a b : Char) : Option Nat :=
  if a.isDigit && b.isDigit then
    some ((a.toNat - 48) * 10 + (b.toNat - 48))
  else none

/-- Four decimal digits. -/
def d4 (a b c d : Char) : Option Nat :=
  match d2 a b, d2 c d with
  | some hi, some lo => some (hi * 100 + lo)
  | _, _ => none

/-- Encode a validated (year, month, day, hour, minute, second) reading as an
integer that orders readings chronologically (the absolute scale is
irrelevant to the modelled code, only ordering and addition of seconds). -/
def dtEncode (y mo d h mi s : Nat) : Option Int :=
  if 1 ≤ mo ∧ mo ≤ 12 ∧ 1 ≤ d ∧ d ≤ 31 ∧ h ≤ 23 ∧ mi ≤ 59 ∧ s ≤ 59 then
    some ((((y * 13 + mo) * 32 + d : Nat) * 86400 + h * 3600 + mi * 60 + s : Nat) : Int)
  else none

/-- Executable model of Python's `datetime.fromisoformat`, restricted to the
shapes the agent feeds it: `YYYY-MM-DD`, `YYYY-MM-DD[T ]HH:MM:SS`, and the
latter with a `+HH:MM` offset (which the caller produces by replacing a
trailing `Z`).  Returns the encoded instant and an offset-aware flag; any
other shape is rejected like CPython rejects a malformed string. -/
def fromisoformat (s : String) : Except String (Int × Bool) :=
  let bad : Except String (Int × Bool) :=
    .error ("Invalid isoformat string: " ++ s)
  match s.data with
  | [y1, y2, y3, y4, '-', m1, m2, '-', a1, a2] =>
    match d4 y1 y2 y3 y4, d2 m1 m2, d2 a1 a2 with
    | some y, some mo, some d =>
      match dtEncode y mo d 0 0 0 with
      | some t => .ok (t, false)
      | none => bad
    | _, _, _ => bad
  | [y1, y2, y3, y4, '-', m1, m2, '-', a1, a2, sep,
     h1, h2, ':', n1, n2, ':', s1, s2] =>
    if sep = 'T' ∨ sep = ' ' then
      match d4 y1 y2 y3 y4, d2 m1 m2, d2 a1 a2, d2 h1 h2, d2 n1 n2, d2 s1 s2 with
      | some y, some mo, some d, some h, some mi, some sec =>
        match dtEncode y mo d h mi sec with
        | some t => .ok (t, false)
        | none => bad
      | _, _, _, _, _, _ => bad
    else bad
  | [y1, y2, y3, y4, '-', m1, m2, '-', a1, a2, sep,
     h1, h2, ':', n1, n2, ':', s1, s2, '+', o1, o2, ':', o3, o4] =>
    if sep = 'T' ∨ sep = ' ' then
      match d4 y1 y2 y3 y4, d2 m1 m2, d2 a1 a2, d2 h1 h2, d2 n1 n2, d2 s1 s2,
          d2 o1 o2, d2 o3 o4 with
      | some y, some mo, some d, some h, some mi, some sec, some oh, some om =>
        if oh ≤ 23 ∧ om ≤ 59 then
          match dtEncode y mo d h mi sec with
          | some t => .ok (t - (oh * 3600 + om * 60 : Nat), true)
          | none => bad
        else bad
      | _, _, _, _, _, _, _, _ => bad
    else bad
  | _ => bad

/-- `s.replace('Z', '+00:00')` (character-wise, as the pattern is a single
character). -/
def replaceZ (s : String) : String :=
  ⟨s.data.flatMap (fun c => if c = 'Z' then "+00:00".data else [c])⟩

/-- The `isinstance(x, str)` branch of `_create_event_from_pending`:
a string is parsed (after `'Z'` → `'+00:00'` replacement, as in the source);
any other value passes through unchanged. -/
def toDatetime (v : Value) : Except String Value :=
  match v with
  | .vstr s =>
    match fromisoformat (replaceZ s) with
    | .ok (t, a) => .ok (.vdt t a)
    | .error e => .error e
  | x => .ok x

/-- Python `end_time <= start_time` on the dynamic values the event helper
compares: datetimes compare when both are naive or both aware, numbers and
booleans compare as numbers, strings compare lexicographically; any other
mix raises `TypeError`. -/
def pyLe (a b : Value) : Except String Bool :=
  match a, b with
  | .vdt t1 a1, .vdt t2 a2 =>
    if a1 = a2 then .ok (t1 ≤ t2)
    else .error "TypeError: cannot compare offset-naive and offset-aware datetimes"
  | .vnum x, .vnum y => .ok (x ≤ y)
  | .vbool x, .vnum y => .ok ((if x then (1 : ℚ) else 0) ≤ y)
  | .vnum x, .vbool y => .ok (x ≤ (if y then (1 : ℚ) else 0))
  | .vbool x, .vbool y => .ok (x ≤ y)
  | .vstr x, .vstr y => .ok (x ≤ y)
  | _, _ => .error "TypeError: unorderable operand types"

/-- Python `start_time + timedelta(hours=1)`: defined on datetimes only. -/
def pyAddHour (v : Value) : Except String Value :=
  match v with
  | .vdt t a => .ok (.vdt (t + 3600) a)
  | _ => .error "TypeError: unsupported operand type for timedelta addition"

end DatetimeModel

namespace DailyUpdateService

/-- `_create_task_from_pending`: builds a `Task` row and flushes it
(assigning its id).  Never fails. -/
def create_task_from_pending (db : DB) (uid : Nat) (u : PendingEntry) :
    DB × Nat :=
  let data := u.structured_data
  let row : TaskRow :=
    { id := db.next_id
      user_id := uid
      title := u.summary
      description := data.get "description"
      due_date := data.get "due_date"
      priority := data.getD "priority" (.vstr "medium")
      status := data.getD "status" (.vstr "pending")
      is_completed := data.getD "is_completed" (.vbool false)
      estimated_duration := data.get "estimated_duration"
      tags := tagsField data
      parent_task_id := data.get "parent_task_id" }
  ({ db with tasks := db.tasks ++ [row], next_id := db.next_id + 1 },
   db.next_id)

/-- `_create_expense_from_pending`: builds an `Expense` row.  `amount`
defaults to `0` when the key is absent (`data.get("amount", 0)`), currency
to `"Taka"`, category to `"other"`; merchant/description fall back to the
summary, date to now.  Never fails. -/
def create_expense_from_pending (db : DB) (uid : Nat) (u : PendingEntry)
    (now : Int) : DB × Nat :=
  let data := u.structured_data
  let row : ExpenseRow :=
    { id := db.next_id
      user_id := uid
      amount := data.getD "amount" (.vnum 0)
      currency := data.getD "currency" (.vstr "Taka")
      category := data.getD "category" (.vstr "other")
      subcategory := data.get "subcategory"
      merchant := pyOr (data.get "merchant") (.vstr u.summary)
      description := pyOr (data.get "description") (.vstr u.summary)
      date := pyOr (data.get "date") (.vdt now false)
      payment_method := data.get "payment_method"
      is_recurring := data.getD "is_recurring" (.vbool false)
      tags := tagsField data }
  ({ db with expenses := db.expenses ++ [row], next_id := db.next_id + 1 },
   db.next_id)

/-- `_create_event_from_pending`: defaults start to now and end to start,
parses string times with `fromisoformat` (which may raise), forces
`end = start + 1h` when `end ≤ start`. -/
def create_event_from_pending (db : DB) (uid : Nat) (u : PendingEntry)
    (now : Int) : Except String (DB × Nat) :=
  let data := u.structured_data
  let start0 := pyOr (data.get "start_time") (.vdt now false)
  let end0 := pyOr (data.get "end_time") start0
  match toDatetime start0 with
  | .error e => .error e
  | .ok st =>
    match toDatetime end0 with
    | .error e => .error e
    | .ok en0 =>
      match pyLe en0 st with
      | .error e => .error e
      | .ok le =>
        match if le then pyAddHour st else .ok en0 with
        | .error e => .error e
        | .ok en =>
          let row : EventRow :=
            { id := db.next_id
              user_id := uid
              title := u.summary
              description := data.get "description"
              start_time := st
              end_time := en
              location := data.get "location"
              tags := tagsField data
              is_all_day := data.getD "is_all_day" (.vbool false)
              reminder_minutes := data.get "reminder_minutes"
              color := data.get "color" }
          .ok ({ db with events := db.events ++ [row],
                         next_id := db.next_id + 1 },
               db.next_id)

/-- `_create_journal_from_pending`: content falls back to the summary.
Never fails. -/
def create_journal_from_pending (db : DB) (uid : Nat) (u : PendingEntry) :
    DB × Nat :=
  let data := u.structured_data
  let row : JournalRow :=
    { id := db.next_id
      user_id := uid
      title := u.summary
      content := pyOr (data.get "content") (.vstr u.summary)
      mood := data.get "mood"
      weather := data.get "weather"
      location := data.get "location" }
  ({ db with journals := db.journals ++ [row], next_id := db.next_id + 1 },
   db.next_id)

/-- The category dispatch of `accept_pending_update`'s `try` block: invokes
the per-category creation helper; the unknown-category `HTTPException`
raised inside the `try` is caught by the same `except` and so surfaces as a
promotion failure string. -/
def promote (db : DB) (uid : Nat) (u : PendingEntry) (now : Int) :
    Except String (DB × Nat) :=
  if u.category == "task" then .ok (create_task_from_pending db uid u)
  else if u.category == "expense" then
    .ok (create_expense_from_pending db uid u now)
  else if u.category == "event" then create_event_from_pending db uid u now
  else if u.category == "journal" then
    .ok (create_journal_from_pending db uid u)
  else .error ("400: Unknown category: " ++ u.category)

/-- The lookup of `get_pending_update_by_id`: first entry matching both the
id and the owner. -/
def findOwned (db : DB) (uid update_id : Nat) : Option PendingEntry :=
  db.pending.find? (fun u => u.id == update_id && u.user_id == uid)

/-- `get_pending_update_by_id`: 404 when absent or not owned. -/
def get_pending_update_by_id (db : DB) (uid update_id : Nat) :
    Except HTTPError PendingEntry :=
  match findOwned db uid update_id with
  | some u => .ok u
  | none => .error ⟨404, "Pending update not found"⟩

/-- Mutating the fetched ORM row: rewrite the entry with the given id. -/
def setEntry (db : DB) (update_id : Nat) (f : PendingEntry → PendingEntry) :
    DB :=
  { db with pending :=
      db.pending.map (fun u => if u.id == update_id then f u else u) }

/-- `edit_pending_update`: 404 when absent/not owned, 400 when not pending;
otherwise overwrites exactly the provided fields. -/
def edit_pending_update (db : DB) (uid update_id : Nat)
    (summary : Option String) (sdata : Option SData) :
    DB × Except HTTPError PendingEntry :=
  match get_pending_update_by_id db uid update_id with
  | .error e => (db, .error e)
  | .ok u =>
    if u.status ≠ UpdateStatus.pending then
      (db, .error ⟨400, "Cannot edit an update that is not pending"⟩)
    else
      let u' : PendingEntry :=
        { u with summary := summary.getD u.summary
                 structured_data := sdata.getD u.structured_data }
      (setEntry db update_id (fun _ => u'), .ok u')

/-- `change_status`: 404 when absent/not owned, 400 when not pending;
otherwise sets the status. -/
def change_status (db : DB) (uid update_id : Nat) (new_status : UpdateStatus) :
    DB × Except HTTPError PendingEntry :=
  match get_pending_update_by_id db uid update_id with
  | .error e => (db, .error e)
  | .ok u =>
    if u.status ≠ UpdateStatus.pending then
      (db, .error ⟨400, "Can only change status of pending updates"⟩)
    else
      let u' : PendingEntry := { u with status := new_status }
      (setEntry db update_id (fun _ => u'), .ok u')

/-- `reject_pending_update` delegates to `change_status` with `rejected`. -/
def reject_pending_update (db : DB) (uid update_id : Nat) :
    DB × Except HTTPError PendingEntry :=
  change_status db uid update_id UpdateStatus.rejected

/-- Result dict of a successful `accept_pending_update`. -/
structure AcceptResult where
  pending_update_id : Nat
  category : String
  created_item_id : Nat
  success : Bool
deriving DecidableEq, Repr

/-- `accept_pending_update`: 404 / 400 guards, then the category dispatch
inside `try`; on helper failure the session is rolled back (the pre-call
state is returned) and a 500 is raised; on success the entry is marked
accepted and everything is committed. -/
def accept_pending_update (db : DB) (uid update_id : Nat) (now : Int) :
    DB × Except HTTPError AcceptResult :=
  match get_pending_update_by_id db uid update_id with
  | .error e => (db, .error e)
  | .ok u =>
    if u.status ≠ UpdateStatus.pending then
      (db, .error ⟨400, "Can only accept pending updates"⟩)
    else
      match promote db uid u now with
      | .error e =>
        (db, .error ⟨500, "Failed to create " ++ u.category ++ ": " ++ e⟩)
      | .ok (db1, cid) =>
        (setEntry db1 update_id (fun v => { v with status := .accepted }),
         .ok ⟨update_id, u.category, cid, true⟩)

/-- One result object collected by `accept_all_pending`. -/
structure BatchResult where
  pending_update_id : Nat
  category : String
  created_item_id : Option Nat
  success : Bool
  error : Option String
deriving DecidableEq, Repr

/-- The selection query of `accept_all_pending`: the owner's pending
entries, optionally restricted to one session. -/
def selectPending (db : DB) (uid : Nat) (session_id : Option Nat) :
    List PendingEntry :=
  db.pending.filter (fun u =>
    u.user_id == uid && u.status == UpdateStatus.pending &&
      (match session_id with
       | some sid => u.session_id == some sid
       | none => true))

/-- The per-entry loop of `accept_all_pending`: `accept` each entry in turn,
catching any exception into a failure record. -/
def acceptLoop (db : DB) (uid : Nat) (now : Int) :
    List PendingEntry → DB × List BatchResult
  | [] => (db, [])
  | u :: rest =>
    let r := accept_pending_update db uid u.id now
    let rec1 : BatchResult :=
      match r.2 with
      | .ok res =>
        ⟨res.pending_update_id, res.category, some res.created_item_id,
         true, none⟩
      | .error e => ⟨u.id, u.category, none, false, some e.detail⟩
    let rr := acceptLoop r.1 uid now rest
    (rr.1, rec1 :: rr.2)

/-- `accept_all_pending`: select, then loop; never raises. -/
def accept_all_pending (db : DB) (uid : Nat) (session_id : Option Nat)
    (now : Int) : DB × List BatchResult :=
  acceptLoop db uid now (selectPending db uid session_id)

/-- `start_session`: end every active session of the owner, then create a
fresh active one with empty coverage and history. -/
def start_session (db : DB) (uid : Nat) (now : Int) : DB × SessionRow :=
  let ended := db.sessions.map (fun s =>
    if s.user_id == uid && s.is_active then
      { s with is_active := false, ended_at := some now }
    else s)
  let ns : SessionRow := ⟨db.next_id, uid, now, none, true, [], []⟩
  ({ db with sessions := ended ++ [ns], next_id := db.next_id + 1 }, ns)

/-- `update_session_categories`: add the category to the session's covered
list when absent, no-op otherwise. -/
def update_session_categories (db : DB) (sid : Nat) (category : String) :
    DB :=
  { db with sessions := db.sessions.map (fun s =>
      if s.id == sid then
        if s.categories_covered.contains category then s
        else { s with categories_covered := s.categories_covered ++ [category] }
      else s) }

/-- `create_pending_update`: persist a new pending entry, then — only when
the given `session_id` references an existing session — mark its category
covered on that session. -/
def create_pending_update (db : DB) (uid : Nat) (category summary : String)
    (raw_text : Option String) (sdata : SData) (session_id : Option Nat) :
    DB × PendingEntry :=
  let p : PendingEntry :=
    ⟨db.next_id, uid, category, summary, raw_text, sdata, .pending,
     session_id⟩
  let db1 := { db with pending := db.pending ++ [p],
                       next_id := db.next_id + 1 }
  match session_id with
  | some sid =>
    if db1.sessions.any (fun s => s.id == sid) then
      (update_session_categories db1 sid category, p)
    else (db1, p)
  | none => (db1, p)

/-- The dict returned by `get_session_stats`. -/
structure SessionStats where
  session_id : Nat
  is_active : Bool
  categories_covered : List String
  pending_items_count : Nat
  total_items_count : Nat
  items_by_category : List (String × Nat)
  all_categories_covered : Bool
deriving DecidableEq, Repr

/-- `get_session_stats`: pending and total counts for the session, a
per-category count (filtered by session and category only), and coverage
completeness as `len(categories_covered) >= 4`. -/
def get_session_stats (db : DB) (s : SessionRow) : SessionStats :=
  { session_id := s.id
    is_active := s.is_active
    categories_covered := s.categories_covered
    pending_items_count :=
      (db.pending.filter (fun u =>
        u.session_id == some s.id && u.status == UpdateStatus.pending)).length
    total_items_count :=
      (db.pending.filter (fun u => u.session_id == some s.id)).length
    items_by_category :=
      ["task", "expense", "event", "journal"].map (fun c =>
        (c, (db.pending.filter (fun u =>
          u.session_id == some s.id && u.category == c)).length))
    all_categories_covered := decide (s.categories_covered.length ≥ 4) }

end DailyUpdateService

namespace DailyUpdateInterviewerStrategy

/-- Does `kw` occur as a contiguous run of `l`? -/
def containsSub (kw : List Char) : List Char → Bool
  | [] => kw.isEmpty
  | x :: xs => kw.isPrefixOf (x :: xs) || containsSub kw xs

/-- Substring test, Python's `kw in text`. -/
def strContains (hay kw : String) : Bool :=
  containsSub kw.data hay.data

/-- Python `text.lower()` (character-wise ASCII lowering, which is what the
keyword matching relies on). -/
def lowerStr (s : String) : String :=
  ⟨s.data.map Char.toLower⟩

/-- The task keyword list of `_detect_categories`. -/
def task_keywords : List String :=
  ["finish", "complete", "done", "work", "task", "project",
   "deadline", "submit", "deliver", "todo", "to-do", "assignment"]

/-- The expense keyword list of `_detect_categories`. -/
def expense_keywords : List String :=
  ["buy", "bought", "spend", "spent", "pay", "paid", "cost",
   "dollar", "money", "$", "price", "purchase", "expense",
   "lunch", "dinner", "coffee", "uber", "taxi", "grocery"]

/-- The event keyword list of `_detect_categories`. -/
def event_keywords : List String :=
  ["meet", "meeting", "appointment", "call", "coffee with",
   "lunch with", "dinner with", "party", "event", "hangout",
   "catch up", "visit", "doctor", "dentist"]

/-- The journal keyword list of `_detect_categories`. -/
def journal_keywords : List String :=
  ["feel", "feeling", "felt", "mood", "happy", "sad", "angry",
   "stressed", "anxious", "excited", "grateful", "tired",
   "okay", "rough", "great", "terrible", "amazing"]

/-- The keyword list the source associates with each category tag. -/
def keywordsFor (category : String) : List String :=
  if category = "task" then task_keywords
  else if category = "expense" then expense_keywords
  else if category = "event" then event_keywords
  else if category = "journal" then journal_keywords
  else []

/-- `_detect_categories`: lowercase the message, then add each category any
of whose keywords occurs as a substring.  The Python set is modelled as a
duplicate-free list in the fixed insertion order task, expense, event,
journal. -/
def detect_categories (text : String) : List String :=
  let lower := lowerStr text
  (if task_keywords.any (fun kw => strContains lower kw) then ["task"] else [])
    ++ (if expense_keywords.any (fun kw => strContains lower kw) then
          ["expense"] else [])
    ++ (if event_keywords.any (fun kw => strContains lower kw) then
          ["event"] else [])
    ++ (if journal_keywords.any (fun kw => strContains lower kw) then
          ["journal"] else [])

/-- One part of a Gemini candidate: either text or a function call carrying
the arguments `_extract_function_calls` reads. -/
inductive GeminiPart where
  | text (s : String)
  | functionCall (name : String) (category : Option String)
      (summary : Option String) (details : Option SData)
deriving DecidableEq, Repr

/-- A Gemini candidate (its `content.parts`). -/
structure GeminiCandidate where
  parts : List GeminiPart
deriving DecidableEq, Repr

/-- A Gemini response (its `candidates`). -/
structure GeminiResponse where
  candidates : List GeminiCandidate
deriving DecidableEq, Repr

/-- A draft entry extracted from a `create_draft_entry` function call. -/
structure DraftEntry where
  category : Option String
  summary : Option String
  details : SData
deriving DecidableEq, Repr

/-- The drafts one part contributes. -/
def partDrafts : GeminiPart → List DraftEntry
  | .text _ => []
  | .functionCall name category summary details =>
    if name = "create_draft_entry" then
      [⟨category, summary, details.getD []⟩]
    else []

/-- `_extract_function_calls`: every `create_draft_entry` call of every
candidate, in order; `None` responses contribute nothing. -/
def extract_function_calls (r : Option GeminiResponse) : List DraftEntry :=
  match r with
  | none => []
  | some resp =>
    resp.candidates.flatMap (fun c => c.parts.flatMap partDrafts)

/-- The text one part contributes. -/
def partText : GeminiPart → List String
  | .text s => if s == "" then [] else [s]
  | .functionCall _ _ _ _ => []

/-- `_extract_text_response`: joined non-empty text parts, with the greeting
for a `None` response and a generic acknowledgement when no text came
back. -/
def extract_text_response (r : Option GeminiResponse) : String :=
  match r with
  | none => "Hi! Ready for your daily update. How did your day go?"
  | some resp =>
    let texts := resp.candidates.flatMap (fun c => c.parts.flatMap partText)
    if texts.isEmpty then "I understand. Tell me more about your day."
    else " ".intercalate texts

/-- The termination phrase list of `_check_completion`. -/
def end_phrases : List String :=
  ["that's all", "that's it", "i'm done", "nothing else",
   "no more", "we're done", "finish", "end", "bye", "thanks"]

/-- `_check_completion`: complete when the user utters a termination phrase
or every one of the four categories is covered. -/
def check_completion (categories_covered : List String)
    (user_message : String) : Bool :=
  if end_phrases.any (fun p => strContains (lowerStr user_message) p) then true
  else if ["task", "expense", "event", "journal"].all
      (fun c => categories_covered.contains c) then true
  else false

/-- Python `set.add` modelled on a duplicate-free list. -/
def addCat (cats : List String) (c : String) : List String :=
  if cats.contains c then cats else cats ++ [c]

/-- The record `execute` returns. -/
structure ExecResult where
  ai_response : String
  draft_entries : List DraftEntry
  categories_mentioned : List String
  categories_covered : List String
  is_complete : Bool
  error : Option String
deriving DecidableEq, Repr

/-- The fallback reply of `execute`'s exception handler. -/
def fallbackReply : String :=
  "I'm having trouble processing that. Could you repeat what you said?"

/-- `execute`: the Gemini call is abstracted as its outcome
(`Except`-wrapped optional response).  On success the drafts and mentioned
categories are folded into the covered set and completion is re-checked; on
any exception the handler returns the graceful fallback with the covered
set untouched and the diagnostic in `error`. -/
def execute (user_message : String) (categories_covered : List String)
    (gemini : Except String (Option GeminiResponse)) : ExecResult :=
  let covered0 := categories_covered.dedup
  match gemini with
  | .error e =>
    { ai_response := fallbackReply
      draft_entries := []
      categories_mentioned := []
      categories_covered := covered0
      is_complete := false
      error := some e }
  | .ok resp =>
    let drafts := extract_function_calls resp
    let mentioned := detect_categories user_message
    let covered1 := mentioned.foldl addCat covered0
    let covered2 := drafts.foldl (fun acc d =>
      match d.category with
      | some c => addCat acc c
      | none => acc) covered1
    let ai := extract_text_response resp
    { ai_response := ai
      draft_entries := drafts
      categories_mentioned := mentioned
      categories_covered := covered2
      is_complete := check_completion covered2 user_message
      error := none }

end DailyUpdateInterviewerStrategy

section RateLimiter

/-- State of `InMemoryRateLimiter`: configured quota and window, plus the
per-key bucket map `key ↦ (count, window_start)`.  `time.monotonic()`
readings are rationals. -/
structure InMemoryRateLimiter where
  requests : Int
  window_seconds : Int
  buckets : List (String × (Nat × ℚ))
deriving DecidableEq, Repr

/-- Dict lookup on the bucket map. -/
def InMemoryRateLimiter.lookup (rl : InMemoryRateLimiter) (key : String) :
    Option (Nat × ℚ) :=
  (rl.buckets.find? (fun p => p.1 == key)).map (·.2)

/-- Dict update `buckets[key] = v` (replace the binding or append it). -/
def bucketsInsert (bs : List (String × (Nat × ℚ))) (key : String)
    (v : Nat × ℚ) : List (String × (Nat × ℚ)) :=
  if bs.any (fun p => p.1 == key) then
    bs.map (fun p => if p.1 == key then (key, v) else p)
  else
    bs ++ [(key, v)]

/-- `InMemoryRateLimiter.check(key)` at monotonic time `now`: returns the
updated limiter and `some retry_after` when blocked, `none` when allowed. -/
def InMemoryRateLimiter.check (rl : InMemoryRateLimiter) (key : String)
    (now : ℚ) : InMemoryRateLimiter × Option ℚ :=
  if rl.requests ≤ 0 then (rl, none)
  else
    let cw := (rl.lookup key).getD (0, now)
    let elapsed := now - cw.2
    let cw' := if elapsed ≥ (rl.window_seconds : ℚ) then ((0 : Nat), now) else cw
    let elapsed' := if elapsed ≥ (rl.window_seconds : ℚ) then (0 : ℚ) else elapsed
    if (cw'.1 : Int) ≥ rl.requests then
      (rl, some (max 0 ((rl.window_seconds : ℚ) - elapsed')))
    else
      ({ rl with buckets := bucketsInsert rl.buckets key (cw'.1 + 1, cw'.2) },
       none)

end RateLimiter

/-- A concrete quota-2, window-3 limiter with empty buckets, as in the
spec's rate-limiter scenario. -/
def rlDemo : InMemoryRateLimiter := ⟨2, 3, []⟩




/-!
## Theorems
-/

section RateLimiterTheorems

/-- Rewriting the binding of `key` in place does not disturb the lookup of
a different key. -/
theorem find?_mapUpdate_ne (bs : List (String × (ℕ × ℚ)))
    (key k2 : String) (v : ℕ × ℚ) (hne : k2 ≠ key) :
    (bs.map (fun p => if p.1 == key then (key, v) else p)).find?
        (fun p => p.1 == k2) =
      bs.find? (fun p => p.1 == k2) := by
  induction bs with
  | nil => simp
  | cons b bs ih =>
    rw [List.map_cons]
    by_cases hb : (b.1 == k2) = true
    · have hb2 : b.1 = k2 := by simpa [beq_iff_eq] using hb
      have hbk : (b.1 == key) = false := by
        simp only [beq_eq_false_iff_ne, hb2]
        exact hne
      have h1 : (((if b.1 == key then (key, v) else b) :
          String × (ℕ × ℚ)).1 == k2) = true := by
        simp [hbk, hb]
      simp [List.find?_cons, h1, hb, hbk]
    · have hb2 : (b.1 == k2) = false := by simpa using hb
      by_cases hk : (b.1 == key) = true
      · have hkk : ((key == k2) : Bool) = false := by
          simp only [beq_eq_false_iff_ne]
          exact fun h => hne h.symm
        have h1 : (((if b.1 == key then (key, v) else b) :
            String × (ℕ × ℚ)).1 == k2) = false := by
          simp [hk, hkk]
        simp only [List.find?_cons, h1, hb2]
        exact ih
      · have hk2 : (b.1 == key) = false := by simpa using hk
        have h1 : (((if b.1 == key then (key, v) else b) :
            String × (ℕ × ℚ)).1 == k2) = false := by
          simp [hk2, hb2]
        simp only [List.find?_cons, h1, hb2]
        exact ih

/-- Replacing or appending a binding for `key` does not disturb the lookup
of a different key. -/
theorem find?_bucketsInsert_ne (bs : List (String × (ℕ × ℚ)))
    (key k2 : String) (v : ℕ × ℚ) (hne : k2 ≠ key) :
    (bucketsInsert bs key v).find? (fun p => p.1 == k2) =
      bs.find? (fun p => p.1 == k2) := by
  unfold bucketsInsert
  split
  · exact find?_mapUpdate_ne bs key k2 v hne
  · rw [List.find?_append]
    have : List.find? (fun p : String × (ℕ × ℚ) => p.1 == k2) [(key, v)] =
        none := by
      have : ((key == k2) : Bool) = false := by
        simp only [beq_eq_false_iff_ne]
        exact fun h => hne h.symm
      simp [List.find?_cons, this]
    simp [this]

/-- A `check` call leaves the limiter unchanged or rewrites exactly the
bucket of the checked key. -/
theorem check_state_shape (rl : InMemoryRateLimiter) (key : String)
    (now : ℚ) :
    (rl.check key now).1 = rl ∨
    ∃ v, (rl.check key now).1 =
      { rl with buckets := bucketsInsert rl.buckets key v } := by
  unfold InMemoryRateLimiter.check
  by_cases h0 : rl.requests ≤ 0
  · rw [if_pos h0]
    left
    rfl
  · rw [if_neg h0]
    simp only []
    split <;> split
    · left
      rfl
    · right
      exact ⟨_, rfl⟩
    · left
      rfl
    · right
      exact ⟨_, rfl⟩

/-- C5: the rate limiter's `check` obeys the fixed-window contract: a
quota ≤ 0 always allows; when the window has elapsed the bucket resets to
count 0 at the current instant (so the call is allowed and the stored
count becomes 1); within the window a full bucket blocks with the
remaining window time (strictly positive) as retry-after and the state
unchanged, and a non-full bucket increments and allows.  Checking one key
never touches another key's bucket, and with quota 2 / window 3 s the
scenario allowed-allowed-blocked(retry 1)-then-allowed-after-the-window
holds on key "A" while key "B" stays allowed. -/
theorem rate_limiter_fixed_window_contract :
    (∀ (rl : InMemoryRateLimiter) (key : String) (now : ℚ),
        rl.requests ≤ 0 → rl.check key now = (rl, none)) ∧
    (∀ (rl : InMemoryRateLimiter) (key : String) (now : ℚ) (c : ℕ) (w : ℚ),
        0 < rl.requests → rl.lookup key = some (c, w) →
        (now - w ≥ (rl.window_seconds : ℚ) →
          rl.check key now =
            ({ rl with buckets := bucketsInsert rl.buckets key (1, now) },
             none)) ∧
        (now - w < (rl.window_seconds : ℚ) →
          ((c : ℤ) ≥ rl.requests →
            rl.check key now =
              (rl, some ((rl.window_seconds : ℚ) - (now - w))) ∧
            (0 : ℚ) < (rl.window_seconds : ℚ) - (now - w)) ∧
          ((c : ℤ) < rl.requests →
            rl.check key now =
              ({ rl with buckets := bucketsInsert rl.buckets key (c + 1, w) },
               none)))) ∧
    (∀ (rl : InMemoryRateLimiter) (key k2 : String) (now : ℚ),
        k2 ≠ key → (rl.check key now).1.lookup k2 = rl.lookup k2) ∧
    ((rlDemo.check "A" 0).2 = none ∧
     ((rlDemo.check "A" 0).1.check "A" 1).2 = none ∧
     (((rlDemo.check "A" 0).1.check "A" 1).1.check "A" 2).2 = some 1 ∧
     ((((rlDemo.check "A" 0).1.check "A" 1).1.check "A" 2).1.check "A" 3).2 =
       none ∧
     ((((rlDemo.check "A" 0).1.check "A" 1).1.check "A" 2).1.check "B" 2).2 =
       none) := by
  refine ⟨?_, ?_, ?_, ?_⟩
  · intro rl key now h
    unfold InMemoryRateLimiter.check
    rw [if_pos h]
  · intro rl key now c w hq hlk
    have hreq : ¬ rl.requests ≤ 0 := by omega
    constructor
    · intro helapsed
      unfold InMemoryRateLimiter.check
      rw [if_neg hreq]
      simp only [hlk, Option.getD_some, if_pos helapsed]
      have h0 : ¬ (((0 : ℕ) : ℤ) ≥ rl.requests) := by omega
      rw [if_neg h0]
    · intro helapsed
      have hnot : ¬ (now - w ≥ (rl.window_seconds : ℚ)) := not_le.mpr helapsed
      constructor
      · intro hfull
        unfold InMemoryRateLimiter.check
        rw [if_neg hreq]
        simp only [hlk, Option.getD_some, if_neg hnot]
        rw [if_pos hfull]
        refine ⟨?_, by linarith⟩
        have hmax : max 0 ((rl.window_seconds : ℚ) - (now - w)) =
            (rl.window_seconds : ℚ) - (now - w) := by
          rw [max_eq_right]
          linarith
        rw [hmax]
      · intro hroom
        unfold InMemoryRateLimiter.check
        rw [if_neg hreq]
        simp only [hlk, Option.getD_some, if_neg hnot]
        rw [if_neg (by omega)]
  · intro rl key k2 now hne
    rcases check_state_shape rl key now with h | ⟨v, h⟩
    · rw [h]
    · rw [h]
      unfold InMemoryRateLimiter.lookup
      rw [find?_bucketsInsert_ne _ _ _ _ hne]
  · refine ⟨?_, ?_, ?_, ?_, ?_⟩ <;>
      norm_num [rlDemo, InMemoryRateLimiter.check,
        InMemoryRateLimiter.lookup, bucketsInsert,
        (by decide : ¬ ("A" : String) = "B"),
        (by decide : ¬ ("B" : String) = "A")]

/-- Witness for the rate-limiter contract: a disabled limiter allows, and a
full quota-2 bucket at elapsed 2 s of a 3 s window blocks with retry 1 s. -/
theorem rate_limiter_fixed_window_contract_witness :
    (⟨0, 60, []⟩ : InMemoryRateLimiter).check "u" 7 = (⟨0, 60, []⟩, none) ∧
    (⟨2, 3, [("A", (2, 0))]⟩ : InMemoryRateLimiter).check "A" 2 =
      (⟨2, 3, [("A", (2, 0))]⟩, some 1) := by
  constructor
  · exact rate_limiter_fixed_window_contract.1 ⟨0, 60, []⟩ "u" 7 (by norm_num)
  · have h := ((rate_limiter_fixed_window_contract.2.1
        ⟨2, 3, [("A", (2, 0))]⟩ "A" 2 2 0 (by norm_num)
        (by norm_num [InMemoryRateLimiter.lookup])).2
        (by norm_num)).1 (by norm_num)
    have h1 := h.1
    norm_num at h1
    exact h1

end RateLimiterTheorems

section PendingTheorems

open DailyUpdateService

/-- The status the store currently records for an entry id. -/
def statusOf (db : DB) (tid : Nat) : Option UpdateStatus :=
  (db.pending.find? (fun u => u.id == tid)).map (·.status)

/-- Rewriting the entries with id `tid` does not change which element an
id-and-owner lookup for a different id finds. -/
theorem find?_setList_ne (l : List PendingEntry) (tid j uid : Nat)
    (g : PendingEntry → PendingEntry)
    (hg : ∀ v : PendingEntry, v.id = tid → (g v).id = tid) (hne : j ≠ tid) :
    (l.map (fun v => if v.id == tid then g v else v)).find?
        (fun v => v.id == j && v.user_id == uid) =
      l.find? (fun v => v.id == j && v.user_id == uid) := by
  rw [List.find?_map]
  have hcomp : ((fun v : PendingEntry => v.id == j && v.user_id == uid) ∘
      (fun v => if v.id == tid then g v else v)) =
      (fun v : PendingEntry => v.id == j && v.user_id == uid) := by
    funext v
    by_cases hv : (v.id == tid) = true
    · have hv2 : v.id = tid := by simpa [beq_iff_eq] using hv
      have h1 : ((g v).id == j) = false := by
        simp only [beq_eq_false_iff_ne, hg v hv2]
        exact fun h => hne h.symm
      have h2 : (v.id == j) = false := by
        simp only [beq_eq_false_iff_ne, hv2]
        exact fun h => hne h.symm
      simp [Function.comp, hv, h1, h2]
    · simp [Function.comp, hv]
  rw [hcomp]
  rcases hfind : l.find? (fun v => v.id == j && v.user_id == uid) with _ | x
  · simp [hfind]
  · have hx := List.find?_some hfind
    have hxj : x.id = j := by
      have := (Bool.and_eq_true _ _).mp hx
      simpa [beq_iff_eq] using this.1
    have hxt : (x.id == tid) = false := by
      simp only [beq_eq_false_iff_ne, hxj]
      exact hne
    simp [hfind, hxt]
    intro h
    exact absurd (hxj ▸ h) hne

/-- Same as `find?_setList_ne` for pure id lookups. -/
theorem find?_setList_ne_id (l : List PendingEntry) (tid j : Nat)
    (g : PendingEntry → PendingEntry)
    (hg : ∀ v : PendingEntry, v.id = tid → (g v).id = tid) (hne : j ≠ tid) :
    (l.map (fun v => if v.id == tid then g v else v)).find?
        (fun v => v.id == j) =
      l.find? (fun v => v.id == j) := by
  rw [List.find?_map]
  have hcomp : ((fun v : PendingEntry => v.id == j) ∘
      (fun v => if v.id == tid then g v else v)) =
      (fun v : PendingEntry => v.id == j) := by
    funext v
    by_cases hv : (v.id == tid) = true
    · have hv2 : v.id = tid := by simpa [beq_iff_eq] using hv
      have h1 : ((g v).id == j) = false := by
        simp only [beq_eq_false_iff_ne, hg v hv2]
        exact fun h => hne h.symm
      have h2 : (v.id == j) = false := by
        simp only [beq_eq_false_iff_ne, hv2]
        exact fun h => hne h.symm
      simp [Function.comp, hv, h1, h2]
    · simp [Function.comp, hv]
  rw [hcomp]
  rcases hfind : l.find? (fun v : PendingEntry => v.id == j) with _ | x
  · simp [hfind]
  · have hx := List.find?_some hfind
    have hxj : x.id = j := by simpa [beq_iff_eq] using hx
    have hxt : (x.id == tid) = false := by
      simp only [beq_eq_false_iff_ne, hxj]
      exact hne
    simp [hfind, hxt]
    intro h
    exact absurd (hxj ▸ h) hne

/-- An id lookup after rewriting the entries with that id finds the rewritten
first match. -/
theorem find?_setList_id (l : List PendingEntry) (tid : Nat)
    (g : PendingEntry → PendingEntry)
    (hg : ∀ v : PendingEntry, v.id = tid → (g v).id = tid) :
    (l.map (fun v => if v.id == tid then g v else v)).find?
        (fun v => v.id == tid) =
      (l.find? (fun v => v.id == tid)).map g := by
  rw [List.find?_map]
  have hcomp : ((fun v : PendingEntry => v.id == tid) ∘
      (fun v => if v.id == tid then g v else v)) =
      (fun v : PendingEntry => v.id == tid) := by
    funext v
    by_cases hv : (v.id == tid) = true
    · have hv2 : v.id = tid := by simpa [beq_iff_eq] using hv
      have h1 : ((g v).id == tid) = true := by
        simp [beq_iff_eq, hg v hv2]
      simp [Function.comp, hv, h1]
    · simp [Function.comp, hv]
  rw [hcomp]
  rcases hfind : l.find? (fun v : PendingEntry => v.id == tid) with _ | x
  · simp [hfind]
  · have hx := List.find?_some hfind
    simp [hfind, hx]
    intro h
    exact absurd (by simpa [beq_iff_eq] using hx) h

/-- Rewriting the entries with id `tid` keeps the id column unchanged. -/
theorem ids_setList (l : List PendingEntry) (tid : Nat)
    (g : PendingEntry → PendingEntry)
    (hg : ∀ v : PendingEntry, v.id = tid → (g v).id = tid) :
    (l.map (fun v => if v.id == tid then g v else v)).map (·.id) =
      l.map (·.id) := by
  rw [List.map_map]
  apply List.map_congr_left
  intro v _
  by_cases hv : (v.id == tid) = true
  · have hv2 : v.id = tid := by simpa [beq_iff_eq] using hv
    simp [Function.comp, hv, hg v hv2, hv2]
  · simp [Function.comp, hv]

/-- After rewriting every entry with id `tid` to the fixed entry `u'`
(which carries that id and owner), the owner lookup finds `u'`, provided
some entry with that id exists. -/
theorem find?_setList_const (l : List PendingEntry) (tid uid : Nat)
    (u' : PendingEntry) (hid : u'.id = tid) (huser : u'.user_id = uid)
    (hex : ∃ v ∈ l, (v.id == tid) = true) :
    (l.map (fun v => if v.id == tid then u' else v)).find?
        (fun v => v.id == tid && v.user_id == uid) = some u' := by
  induction l with
  | nil => simp at hex
  | cons a l ih =>
    by_cases ha : (a.id == tid) = true
    · have ha2 : a.id = tid := by simpa [beq_iff_eq] using ha
      simp [List.find?_cons, ha2, hid, huser, beq_iff_eq]
    · have hex2 : ∃ v ∈ l, (v.id == tid) = true := by
        rcases hex with ⟨v, hv, hvt⟩
        rcases List.mem_cons.mp hv with h | h
        · exact absurd (h ▸ hvt) (by simpa using ha)
        · exact ⟨v, h, hvt⟩
      have ha2 : ((a.id == tid) && (a.user_id == uid)) = false := by
        simp [Bool.and_eq_false_iff]
        simp only [Bool.not_eq_true] at ha
        simp [beq_iff_eq] at ha ⊢
        intro h
        exact absurd h ha
      simp only [List.map_cons, List.find?_cons]
      rw [if_neg (by simpa using ha)]
      simp only [ha2]
      exact ih hex2

/-- `get_pending_update_by_id` succeeds exactly on the owner lookup. -/
theorem get_ok_iff (db : DB) (uid tid : Nat) (u : PendingEntry) :
    get_pending_update_by_id db uid tid = .ok u ↔
      findOwned db uid tid = some u := by
  unfold get_pending_update_by_id
  cases h : findOwned db uid tid <;> simp

/-- C2: the staged-entry status machine: accept, reject and edit on an
entry that is no longer pending fail with the invalid-state error and
leave the store untouched; a successful `change_status` can only start
from a pending entry (so the only moves are pending→accepted and
pending→rejected); `edit` on a pending entry overwrites exactly the
provided fields, keeps the status pending, and leaves every other entry
alone. -/
theorem pending_status_machine (db : DB) (uid tid : Nat) :
    (∀ u : PendingEntry, findOwned db uid tid = some u →
        u.status ≠ UpdateStatus.pending →
        (∀ now : Int, accept_pending_update db uid tid now =
          (db, .error ⟨400, "Can only accept pending updates"⟩)) ∧
        reject_pending_update db uid tid =
          (db, .error ⟨400, "Can only change status of pending updates"⟩) ∧
        (∀ (s : Option String) (sd : Option SData),
          edit_pending_update db uid tid s sd =
            (db, .error ⟨400, "Cannot edit an update that is not pending"⟩))) ∧
    (∀ (ns : UpdateStatus) (db' : DB) (u' : PendingEntry),
        change_status db uid tid ns = (db', .ok u') →
        u'.status = ns ∧
        ∃ u, findOwned db uid tid = some u ∧
          u.status = UpdateStatus.pending) ∧
    (∀ (u : PendingEntry) (s : Option String) (sd : Option SData),
        findOwned db uid tid = some u → u.status = UpdateStatus.pending →
        ∃ db' u', edit_pending_update db uid tid s sd = (db', .ok u') ∧
          u'.status = UpdateStatus.pending ∧
          u'.summary = s.getD u.summary ∧
          u'.structured_data = sd.getD u.structured_data ∧
          u'.id = u.id ∧ u'.category = u.category ∧
          u'.raw_text = u.raw_text ∧ u'.session_id = u.session_id ∧
          findOwned db' uid tid = some u' ∧
          (∀ j, j ≠ tid → findOwned db' uid j = findOwned db uid j)) := by
  refine ⟨?_, ?_, ?_⟩
  · intro u hf hs
    have hget : get_pending_update_by_id db uid tid = .ok u :=
      (get_ok_iff db uid tid u).mpr hf
    refine ⟨?_, ?_, ?_⟩
    · intro now
      unfold accept_pending_update
      rw [hget]
      simp [hs]
    · unfold reject_pending_update change_status
      rw [hget]
      simp [hs]
    · intro s sd
      unfold edit_pending_update
      rw [hget]
      simp [hs]
  · intro ns db' u' h
    unfold change_status at h
    cases hget : get_pending_update_by_id db uid tid with
    | error e =>
      rw [hget] at h
      simp at h
    | ok u =>
      rw [hget] at h
      dsimp only at h
      by_cases hst : u.status ≠ UpdateStatus.pending
      · rw [if_pos hst] at h
        simp at h
      · rw [if_neg hst] at h
        have hu' : u' = { u with status := ns } := by
          have := congrArg Prod.snd h
          simpa using this.symm
        refine ⟨by rw [hu'], u, (get_ok_iff db uid tid u).mp hget, ?_⟩
        simpa using hst
  · intro u s sd hf hst
    have hget : get_pending_update_by_id db uid tid = .ok u :=
      (get_ok_iff db uid tid u).mpr hf
    have hpred := List.find?_some hf
    have huid : u.id = tid := by
      have := (Bool.and_eq_true _ _).mp hpred
      simpa [beq_iff_eq] using this.1
    have huser : u.user_id = uid := by
      have := (Bool.and_eq_true _ _).mp hpred
      simpa [beq_iff_eq] using this.2
    have hmem : u ∈ db.pending := List.mem_of_find?_eq_some hf
    refine ⟨setEntry db tid (fun _ =>
        { u with summary := s.getD u.summary,
                 structured_data := sd.getD u.structured_data }),
      { u with summary := s.getD u.summary,
               structured_data := sd.getD u.structured_data },
      ?_, ?_, rfl, rfl, rfl, rfl, rfl, rfl, ?_, ?_⟩
    · unfold edit_pending_update
      rw [hget]
      dsimp only
      rw [if_neg (by simp [hst])]
    · simpa using hst
    · unfold findOwned setEntry
      exact find?_setList_const db.pending tid uid _ huid huser
        ⟨u, hmem, by simp [beq_iff_eq, huid]⟩
    · intro j hj
      unfold findOwned setEntry
      exact find?_setList_ne db.pending tid j uid _
        (fun v _ => huid) hj

/-- A store holding one already-accepted journal entry (id 1, owner 7). -/
def dbTerminal : DB :=
  ⟨[⟨1, 7, "journal", "Done", none, [], .accepted, none⟩],
   [], [], [], [], [], 2⟩

/-- Witness for the status machine: on the accepted entry of
`dbTerminal`, accept and edit both fail with the invalid-state error and
return the store unchanged. -/
theorem pending_status_machine_witness :
    accept_pending_update dbTerminal 7 1 0 =
      (dbTerminal, .error ⟨400, "Can only accept pending updates"⟩) ∧
    edit_pending_update dbTerminal 7 1 (some "X") none =
      (dbTerminal, .error ⟨400, "Cannot edit an update that is not pending"⟩) := by
  have h := (pending_status_machine dbTerminal 7 1).1
    ⟨1, 7, "journal", "Done", none, [], .accepted, none⟩
    (by rfl) (by decide)
  exact ⟨h.1 0, h.2.2 (some "X") none⟩

/-- A successful per-category creation helper only writes to the domain
tables: the staging table is untouched. -/
theorem promote_ok_pending (db : DB) (uid : Nat) (u : PendingEntry)
    (now : Int) (db1 : DB) (cid : Nat)
    (h : promote db uid u now = .ok (db1, cid)) :
    db1.pending = db.pending := by
  unfold promote at h
  split_ifs at h with h1 h2 h3 h4
  · unfold create_task_from_pending at h
    simp only [Except.ok.injEq, Prod.mk.injEq] at h
    rw [← h.1]
  · unfold create_expense_from_pending at h
    simp only [Except.ok.injEq, Prod.mk.injEq] at h
    rw [← h.1]
  · unfold create_event_from_pending at h
    simp only [] at h
    split at h
    · exact absurd h (by simp)
    · split at h
      · exact absurd h (by simp)
      · split at h
        · exact absurd h (by simp)
        · split at h
          · exact absurd h (by simp)
          · simp only [Except.ok.injEq, Prod.mk.injEq] at h
            rw [← h.1]
  · unfold create_journal_from_pending at h
    simp only [Except.ok.injEq, Prod.mk.injEq] at h
    rw [← h.1]

/-- C3: `accept` is atomic around promotion: a missing or foreign id gives
NotFound with the store unchanged; a non-pending entry gives the
invalid-state error with the store unchanged; a pending entry is promoted
by category, and on promotion failure the call fails with the wrapped
500-error while the whole store stays exactly as before (rollback), while
on success the entry is flipped to accepted, the created item's id is
returned, and no other entry's status moves. -/
theorem accept_promotion_atomic (db : DB) (uid tid : Nat) (now : Int) :
    (findOwned db uid tid = none →
      accept_pending_update db uid tid now =
        (db, .error ⟨404, "Pending update not found"⟩)) ∧
    (∀ u, findOwned db uid tid = some u →
      u.status ≠ UpdateStatus.pending →
      accept_pending_update db uid tid now =
        (db, .error ⟨400, "Can only accept pending updates"⟩)) ∧
    (∀ u, findOwned db uid tid = some u →
      u.status = UpdateStatus.pending →
      (∀ e, promote db uid u now = .error e →
        accept_pending_update db uid tid now =
          (db, .error ⟨500, "Failed to create " ++ u.category ++ ": " ++ e⟩)) ∧
      (∀ db1 cid, promote db uid u now = .ok (db1, cid) →
        ∃ db2, accept_pending_update db uid tid now =
            (db2, .ok ⟨tid, u.category, cid, true⟩) ∧
          statusOf db2 tid = some UpdateStatus.accepted ∧
          db2.tasks = db1.tasks ∧ db2.expenses = db1.expenses ∧
          db2.events = db1.events ∧ db2.journals = db1.journals ∧
          (∀ j, j ≠ tid → statusOf db2 j = statusOf db j))) := by
  refine ⟨?_, ?_, ?_⟩
  · intro hf
    have hget : get_pending_update_by_id db uid tid =
        .error ⟨404, "Pending update not found"⟩ := by
      unfold get_pending_update_by_id
      rw [hf]
    unfold accept_pending_update
    rw [hget]
  · intro u hf hs
    have hget : get_pending_update_by_id db uid tid = .ok u :=
      (get_ok_iff db uid tid u).mpr hf
    unfold accept_pending_update
    rw [hget]
    simp [hs]
  · intro u hf hst
    have hget : get_pending_update_by_id db uid tid = .ok u :=
      (get_ok_iff db uid tid u).mpr hf
    have hpred := List.find?_some hf
    have huid : u.id = tid := by
      have := (Bool.and_eq_true _ _).mp hpred
      simpa [beq_iff_eq] using this.1
    have hmem : u ∈ db.pending := List.mem_of_find?_eq_some hf
    constructor
    · intro e hp
      unfold accept_pending_update
      rw [hget]
      dsimp only
      rw [if_neg (by simp [hst]), hp]
    · intro db1 cid hp
      refine ⟨setEntry db1 tid (fun v => { v with status := .accepted }),
        ?_, ?_, rfl, rfl, rfl, rfl, ?_⟩
      · unfold accept_pending_update
        rw [hget]
        dsimp only
        rw [if_neg (by simp [hst]), hp]
      · have hpend := promote_ok_pending db uid u now db1 cid hp
        unfold statusOf setEntry
        dsimp only
        rw [hpend]
        rw [find?_setList_id db.pending tid
          (fun v => { v with status := UpdateStatus.accepted })
          (fun v hv => hv)]
        have hsome : ∃ x, db.pending.find? (fun v => v.id == tid) = some x := by
          have : (db.pending.find? (fun v => v.id == tid)).isSome = true :=
            List.find?_isSome.mpr ⟨u, hmem, by simp [beq_iff_eq, huid]⟩
          exact Option.isSome_iff_exists.mp this
        rcases hsome with ⟨x, hx⟩
        rw [hx]
        rfl
      · intro j hj
        have hpend := promote_ok_pending db uid u now db1 cid hp
        unfold statusOf setEntry
        dsimp only
        rw [hpend]
        rw [find?_setList_ne_id db.pending tid j
          (fun v => { v with status := UpdateStatus.accepted })
          (fun v hv => hv) hj]

/-- A store holding one pending event entry (id 1, owner 7) whose
`start_time` cannot be parsed. -/
def dbBadEvent : DB :=
  ⟨[⟨1, 7, "event", "Mtg", none, [("start_time", Value.vstr "nonsense")],
     .pending, none⟩],
   [], [], [], [], [], 2⟩

/-- Witness for accept atomicity: promoting the unparsable event fails
with the wrapped 500 error and the store is returned unchanged (the entry
stays pending). -/
theorem accept_promotion_atomic_witness :
    accept_pending_update dbBadEvent 7 1 0 =
      (dbBadEvent,
       .error ⟨500, "Failed to create event: Invalid isoformat string: nonsense"⟩) := by
  have h := ((accept_promotion_atomic dbBadEvent 7 1 0).2.2
    ⟨1, 7, "event", "Mtg", none, [("start_time", Value.vstr "nonsense")],
     .pending, none⟩
    (by rfl) rfl).1 "Invalid isoformat string: nonsense" (by rfl)
  exact h

/-- Ids of the owner's currently active sessions. -/
def activesOf (db : DB) (uid : Nat) : List Nat :=
  (db.sessions.filter (fun s => s.user_id == uid && s.is_active)).map (·.id)

/-- After `start_session`, the owner's only active session is the new one. -/
theorem activesOf_start (db : DB) (uid : Nat) (now : Int) :
    activesOf (start_session db uid now).1 uid =
      [(start_session db uid now).2.id] := by
  unfold activesOf start_session
  dsimp only
  rw [List.filter_append, List.filter_map]
  have h1 : ((fun s : SessionRow => s.user_id == uid && s.is_active) ∘
      (fun s => if s.user_id == uid && s.is_active then
        { s with is_active := false, ended_at := some now } else s)) =
      (fun _ => false) := by
    funext s
    by_cases hs : (s.user_id == uid && s.is_active) = true
    · simp [Function.comp, hs]
    · simp only [Function.comp, hs, Bool.false_eq_true, if_neg]
      simpa using hs
  rw [h1]
  simp

/-- C6: `start_session` deactivates every active session of the owner
(stamping `ended_at`) and returns a fresh active session with empty
coverage and history; the owner then has exactly one active session.
After two consecutive starts the two sessions are distinct, only the
second is active, and the first is inactive with `ended_at` set to the
second start's instant. -/
theorem start_session_one_active (db : DB) (uid : Nat) (t1 t2 : Int)
    (hfresh : ∀ s ∈ db.sessions, s.id < db.next_id) :
    ((start_session db uid t1).2.is_active = true ∧
     (start_session db uid t1).2.ended_at = none ∧
     (start_session db uid t1).2.categories_covered = [] ∧
     (start_session db uid t1).2.conversation_history = [] ∧
     activesOf (start_session db uid t1).1 uid =
       [(start_session db uid t1).2.id]) ∧
    (∀ s ∈ db.sessions, s.user_id = uid → s.is_active = true →
       ∃ s2 ∈ (start_session db uid t1).1.sessions,
         s2.id = s.id ∧ s2.is_active = false ∧ s2.ended_at = some t1) ∧
    ((start_session db uid t1).2.id ≠
       (start_session (start_session db uid t1).1 uid t2).2.id ∧
     activesOf (start_session (start_session db uid t1).1 uid t2).1 uid =
       [(start_session (start_session db uid t1).1 uid t2).2.id] ∧
     (∀ s2 ∈ (start_session (start_session db uid t1).1 uid t2).1.sessions,
        s2.id = (start_session db uid t1).2.id →
        s2.is_active = false ∧ s2.ended_at = some t2)) := by
  refine ⟨⟨rfl, rfl, rfl, rfl, activesOf_start db uid t1⟩, ?_, ?_, ?_, ?_⟩
  · intro s hs hu ha
    refine ⟨{ s with is_active := false, ended_at := some t1 }, ?_, rfl, rfl, rfl⟩
    unfold start_session
    dsimp only
    apply List.mem_append_left
    apply List.mem_map.mpr
    refine ⟨s, hs, ?_⟩
    rw [if_pos (by simp [hu, ha])]
  · simp [start_session]
  · exact activesOf_start (start_session db uid t1).1 uid t2
  · intro s2 hmem heq
    have hid1 : (start_session db uid t1).2.id = db.next_id := rfl
    unfold start_session at hmem
    dsimp only at hmem
    rcases List.mem_append.mp hmem with h | h
    · rcases List.mem_map.mp h with ⟨y, hy, hgy⟩
      rcases List.mem_append.mp hy with hy1 | hy1
      · rcases List.mem_map.mp hy1 with ⟨s0, hs0, hfs0⟩
        have hyid : y.id = s0.id := by
          rw [← hfs0]
          split <;> rfl
        have hs2id : s2.id = s0.id := by
          rw [← hgy, ← hyid]
          split <;> rfl
        have := hfresh s0 hs0
        rw [hid1] at heq
        omega
      · have hy2 : y = ⟨db.next_id, uid, t1, none, true, [], []⟩ := by
          simpa using hy1
        rw [← hgy, hy2]
        rw [if_pos (by simp)]
        exact ⟨rfl, rfl⟩
    · have hs2 : s2 = ⟨db.next_id + 1, uid, t2, none, true, [], []⟩ := by
        simpa using h
      rw [hid1] at heq
      rw [hs2] at heq
      simp at heq

/-- Witness: starting twice from an empty store leaves exactly the second
session (id 1) active for the owner. -/
theorem start_session_one_active_witness :
    activesOf
      (start_session (start_session ⟨[], [], [], [], [], [], 0⟩ 7 5).1 7 9).1
      7 = [1] := by
  have h :=
    (start_session_one_active ⟨[], [], [], [], [], [], 0⟩ 7 5 9
      (by simp)).2.2.2.1
  simpa using h

/-- A store with one accepted (not pending) expense entry attached to
session 99, and that session's row. -/
def dbStats : DB :=
  ⟨[⟨1, 7, "expense", "X", none, [], .accepted, some 99⟩],
   [⟨99, 7, 0, none, true, [], []⟩], [], [], [], [], 100⟩

/-- The session row of `dbStats`. -/
def sessStats : SessionRow := ⟨99, 7, 0, none, true, [], []⟩

/-- Counterexample to C7 as stated: the per-category map of
`get_session_stats` is not the per-category pending counts — the accepted
expense entry of `dbStats` is counted. -/
theorem session_stats_per_category_not_pending :
    (get_session_stats dbStats sessStats).items_by_category ≠
      ["task", "expense", "event", "journal"].map (fun c =>
        (c, dbStats.pending.countP (fun u =>
          u.session_id == some sessStats.id && u.category == c &&
            u.status == UpdateStatus.pending))) := by
  decide

/-- C7 (amended): `get_session_stats` returns the session's pending-entry
count and total-entry count, a per-category count of all of the session's
entries regardless of status, and coverage completeness exactly when at
least four categories are covered. -/
theorem session_stats_spec (db : DB) (s : SessionRow) :
    (get_session_stats db s).session_id = s.id ∧
    (get_session_stats db s).pending_items_count =
      db.pending.countP (fun u =>
        u.session_id == some s.id && u.status == UpdateStatus.pending) ∧
    (get_session_stats db s).total_items_count =
      db.pending.countP (fun u => u.session_id == some s.id) ∧
    (get_session_stats db s).items_by_category =
      ["task", "expense", "event", "journal"].map (fun c =>
        (c, db.pending.countP (fun u =>
          u.session_id == some s.id && u.category == c))) ∧
    ((get_session_stats db s).all_categories_covered = true ↔
      4 ≤ s.categories_covered.length) := by
  refine ⟨rfl, ?_, ?_, ?_, ?_⟩
  · rw [List.countP_eq_length_filter]
    rfl
  · rw [List.countP_eq_length_filter]
    rfl
  · unfold get_session_stats
    dsimp only
    apply List.map_congr_left
    intro c _
    rw [List.countP_eq_length_filter]
  · simp [get_session_stats]

/-- Witness: evaluating the stats contract on `dbStats`. -/
theorem session_stats_spec_witness :
    (get_session_stats dbStats sessStats).pending_items_count =
      dbStats.pending.countP (fun u =>
        u.session_id == some sessStats.id &&
          u.status == UpdateStatus.pending) :=
  (session_stats_spec dbStats sessStats).2.1

/-- C10: `create_pending_update` with a `session_id` that references no
existing session still creates the entry (status pending, the dangling
session id stored), raises nothing, and skips the category-coverage side
effect: the session table is unchanged. -/
theorem create_pending_dangling_session (db : DB) (uid : Nat)
    (cat summ : String) (raw : Option String) (sdata : SData) (sid : Nat)
    (h : ∀ s ∈ db.sessions, s.id ≠ sid) :
    (create_pending_update db uid cat summ raw sdata (some sid)).2.status =
      UpdateStatus.pending ∧
    (create_pending_update db uid cat summ raw sdata (some sid)).2.session_id =
      some sid ∧
    (create_pending_update db uid cat summ raw sdata (some sid)).2.category =
      cat ∧
    (create_pending_update db uid cat summ raw sdata (some sid)).2.summary =
      summ ∧
    (create_pending_update db uid cat summ raw sdata (some sid)).1.pending =
      db.pending ++
        [(create_pending_update db uid cat summ raw sdata (some sid)).2] ∧
    (create_pending_update db uid cat summ raw sdata (some sid)).1.sessions =
      db.sessions := by
  have hany : (db.sessions.any (fun s => s.id == sid)) = false := by
    rw [Bool.eq_false_iff]
    intro hc
    rcases List.any_eq_true.mp hc with ⟨s, hs, he⟩
    exact h s hs (by simpa [beq_iff_eq] using he)
  unfold create_pending_update
  dsimp only
  rw [hany]
  simp

/-- Witness: creating an entry against the empty session table with the
dangling session id 42. -/
theorem create_pending_dangling_session_witness :
    (create_pending_update ⟨[], [], [], [], [], [], 0⟩ 7 "task" "T" none []
      (some 42)).2.status = UpdateStatus.pending ∧
    (create_pending_update ⟨[], [], [], [], [], [], 0⟩ 7 "task" "T" none []
      (some 42)).1.sessions = [] :=
  ⟨(create_pending_dangling_session ⟨[], [], [], [], [], [], 0⟩ 7 "task" "T"
      none [] 42 (by simp)).1,
   (create_pending_dangling_session ⟨[], [], [], [], [], [], 0⟩ 7 "task" "T"
      none [] 42 (by simp)).2.2.2.2.2⟩

/-- Three pending expense entries for owner 7; entry 2 has no `amount`
key in its structured data. -/
def dbExp3 : DB :=
  ⟨[⟨1, 7, "expense", "Coffee", none, [("amount", Value.vnum 5)],
     .pending, none⟩,
    ⟨2, 7, "expense", "Lunch", none, [("merchant", Value.vstr "Sub")],
     .pending, none⟩,
    ⟨3, 7, "expense", "Taxi", none, [("amount", Value.vnum 9)],
     .pending, none⟩],
   [], [], [], [], [], 10⟩

/-- Counterexample to C1 as stated: accepting the amount-less expense
entry 2 does not fail — it succeeds, the entry becomes accepted, and a
domain expense with the silently defaulted amount 0 is created; hence
`accept_all` over the three entries returns three successes, not two
successes and one failure, and entry 2 does not stay pending. -/
theorem expense_missing_amount_not_rejected :
    (accept_pending_update dbExp3 7 2 0).2 =
      .ok ⟨2, "expense", 10, true⟩ ∧
    statusOf (accept_pending_update dbExp3 7 2 0).1 2 =
      some UpdateStatus.accepted ∧
    ((accept_pending_update dbExp3 7 2 0).1.expenses.map (·.amount)) =
      [Value.vnum 0] ∧
    ((accept_all_pending dbExp3 7 none 0).2.map (·.success)) =
      [true, true, true] ∧
    statusOf (accept_all_pending dbExp3 7 none 0).1 2 =
      some UpdateStatus.accepted := by
  decide

/-- C1 (amended): accepting a pending expense entry whose structured data
lacks an `amount` key succeeds rather than failing: the promotion silently
defaults the amount to 0, appends the domain expense, flips the entry to
accepted and returns the created id. -/
theorem accept_expense_missing_amount_defaults (db : DB) (uid tid : Nat)
    (now : Int) (u : PendingEntry)
    (hf : findOwned db uid tid = some u)
    (hst : u.status = UpdateStatus.pending)
    (hcat : u.category = "expense")
    (hamt : u.structured_data.get "amount" = none) :
    accept_pending_update db uid tid now =
      (setEntry { db with
          expenses := db.expenses ++
            [{ id := db.next_id
               user_id := uid
               amount := Value.vnum 0
               currency := u.structured_data.getD "currency" (.vstr "Taka")
               category := u.structured_data.getD "category" (.vstr "other")
               subcategory := u.structured_data.get "subcategory"
               merchant := pyOr (u.structured_data.get "merchant")
                 (.vstr u.summary)
               description := pyOr (u.structured_data.get "description")
                 (.vstr u.summary)
               date := pyOr (u.structured_data.get "date") (.vdt now false)
               payment_method := u.structured_data.get "payment_method"
               is_recurring := u.structured_data.getD "is_recurring"
                 (.vbool false)
               tags := tagsField u.structured_data }]
          next_id := db.next_id + 1 } tid
        (fun v => { v with status := UpdateStatus.accepted }),
       .ok ⟨tid, "expense", db.next_id, true⟩) ∧
    statusOf (accept_pending_update db uid tid now).1 tid =
      some UpdateStatus.accepted := by
  have hget : get_pending_update_by_id db uid tid = .ok u :=
    (get_ok_iff db uid tid u).mpr hf
  have hpromote : promote db uid u now =
      .ok (create_expense_from_pending db uid u now) := by
    unfold promote
    rw [hcat]
    simp
  have haccept : accept_pending_update db uid tid now =
      (setEntry (create_expense_from_pending db uid u now).1 tid
        (fun v => { v with status := UpdateStatus.accepted }),
       .ok ⟨tid, u.category, (create_expense_from_pending db uid u now).2,
            true⟩) := by
    unfold accept_pending_update
    rw [hget]
    dsimp only
    rw [if_neg (by simp [hst]), hpromote]
  have hrow : create_expense_from_pending db uid u now =
      ({ db with
          expenses := db.expenses ++
            [{ id := db.next_id
               user_id := uid
               amount := Value.vnum 0
               currency := u.structured_data.getD "currency" (.vstr "Taka")
               category := u.structured_data.getD "category" (.vstr "other")
               subcategory := u.structured_data.get "subcategory"
               merchant := pyOr (u.structured_data.get "merchant")
                 (.vstr u.summary)
               description := pyOr (u.structured_data.get "description")
                 (.vstr u.summary)
               date := pyOr (u.structured_data.get "date") (.vdt now false)
               payment_method := u.structured_data.get "payment_method"
               is_recurring := u.structured_data.getD "is_recurring"
                 (.vbool false)
               tags := tagsField u.structured_data }]
          next_id := db.next_id + 1 }, db.next_id) := by
    unfold create_expense_from_pending
    dsimp only
    rw [show u.structured_data.getD "amount" (.vnum 0) = Value.vnum 0 by
      unfold SData.getD
      rw [hamt]
      rfl]
  constructor
  · rw [haccept, hrow, hcat]
  · rw [haccept]
    dsimp only
    have hpend : (create_expense_from_pending db uid u now).1.pending =
        db.pending := by
      rw [hrow]
    unfold statusOf setEntry
    dsimp only
    rw [hpend]
    rw [find?_setList_id db.pending tid
      (fun v => { v with status := UpdateStatus.accepted }) (fun v hv => hv)]
    have hpred := List.find?_some hf
    have huid : u.id = tid := by
      have := (Bool.and_eq_true _ _).mp hpred
      simpa [beq_iff_eq] using this.1
    have hmem : u ∈ db.pending := List.mem_of_find?_eq_some hf
    have hsome : ∃ x, db.pending.find? (fun v => v.id == tid) = some x := by
      have : (db.pending.find? (fun v => v.id == tid)).isSome = true :=
        List.find?_isSome.mpr ⟨u, hmem, by simp [beq_iff_eq, huid]⟩
      exact Option.isSome_iff_exists.mp this
    rcases hsome with ⟨x, hx⟩
    rw [hx]
    rfl

/-- Witness: the amended expense-default behavior applied to entry 2 of
`dbExp3`. -/
theorem accept_expense_missing_amount_defaults_witness :
    statusOf (accept_pending_update dbExp3 7 2 0).1 2 =
      some UpdateStatus.accepted :=
  (accept_expense_missing_amount_defaults dbExp3 7 2 0
    ⟨2, 7, "expense", "Lunch", none, [("merchant", Value.vstr "Sub")],
     .pending, none⟩
    (by rfl) rfl rfl (by rfl)).2

/-- `accept_pending_update` never changes the set of entry ids in the
staging table. -/
theorem accept_ids (db : DB) (uid tid : Nat) (now : Int) :
    ((accept_pending_update db uid tid now).1.pending.map (·.id)) =
      db.pending.map (·.id) := by
  unfold accept_pending_update
  cases hget : get_pending_update_by_id db uid tid with
  | error e => rfl
  | ok u =>
    dsimp only
    by_cases hst : u.status ≠ UpdateStatus.pending
    · rw [if_pos hst]
    · rw [if_neg hst]
      cases hp : promote db uid u now with
      | error e => rfl
      | ok p =>
        obtain ⟨db1, cid⟩ := p
        dsimp only
        unfold setEntry
        dsimp only
        rw [ids_setList db1.pending tid
          (fun v => { v with status := UpdateStatus.accepted })
          (fun v hv => hv)]
        rw [promote_ok_pending db uid u now db1 cid hp]

/-- `accept_pending_update` never changes the recorded status of an entry
with a different id. -/
theorem accept_statusOf_ne (db : DB) (uid tid : Nat) (now : Int) (j : Nat)
    (hj : j ≠ tid) :
    statusOf (accept_pending_update db uid tid now).1 j = statusOf db j := by
  unfold accept_pending_update
  cases hget : get_pending_update_by_id db uid tid with
  | error e => rfl
  | ok u =>
    dsimp only
    by_cases hst : u.status ≠ UpdateStatus.pending
    · rw [if_pos hst]
    · rw [if_neg hst]
      cases hp : promote db uid u now with
      | error e => rfl
      | ok p =>
        obtain ⟨db1, cid⟩ := p
        dsimp only
        unfold statusOf setEntry
        dsimp only
        rw [promote_ok_pending db uid u now db1 cid hp]
        rw [find?_setList_ne_id db.pending tid j
          (fun v => { v with status := UpdateStatus.accepted })
          (fun v hv => hv) hj]

/-- `accept_pending_update` never changes the owner lookup of an entry
with a different id. -/
theorem accept_findOwned_ne (db : DB) (uid tid : Nat) (now : Int)
    (uid2 j : Nat) (hj : j ≠ tid) :
    findOwned (accept_pending_update db uid tid now).1 uid2 j =
      findOwned db uid2 j := by
  unfold accept_pending_update
  cases hget : get_pending_update_by_id db uid tid with
  | error e => rfl
  | ok u =>
    dsimp only
    by_cases hst : u.status ≠ UpdateStatus.pending
    · rw [if_pos hst]
    · rw [if_neg hst]
      cases hp : promote db uid u now with
      | error e => rfl
      | ok p =>
        obtain ⟨db1, cid⟩ := p
        dsimp only
        unfold findOwned setEntry
        dsimp only
        rw [promote_ok_pending db uid u now db1 cid hp]
        rw [find?_setList_ne db.pending tid j uid2
          (fun v => { v with status := UpdateStatus.accepted })
          (fun v hv => hv) hj]

/-- With duplicate-free ids, the entry an owner lookup finds is also what
the bare id lookup finds. -/
theorem find?_id_of_findOwned (l : List PendingEntry) (uid tid : Nat)
    (u : PendingEntry) (hnodup : (l.map (·.id)).Nodup)
    (hf : l.find? (fun v => v.id == tid && v.user_id == uid) = some u) :
    l.find? (fun v => v.id == tid) = some u := by
  induction l with
  | nil => simp at hf
  | cons a l ih =>
    have hnd := hnodup
    rw [List.map_cons, List.nodup_cons] at hnd
    by_cases ha : (a.id == tid) = true
    · rw [List.find?_cons_of_pos (p := fun v : PendingEntry => v.id == tid)
        l ha]
      by_cases hau : (a.user_id == uid) = true
      · have hpa : ((a.id == tid && a.user_id == uid) : Bool) = true := by
          simp [ha, hau]
        rw [List.find?_cons_of_pos
          (p := fun v : PendingEntry => v.id == tid && v.user_id == uid)
          l hpa] at hf
        exact hf
      · have hpa : ¬ ((a.id == tid && a.user_id == uid) : Bool) = true := by
          simp [ha, hau]
        rw [List.find?_cons_of_neg
          (p := fun v : PendingEntry => v.id == tid && v.user_id == uid)
          l hpa] at hf
        have hu : u ∈ l := List.mem_of_find?_eq_some hf
        have hut : u.id = tid := by
          have h1 := List.find?_some hf
          have h2 := (Bool.and_eq_true _ _).mp h1
          simpa [beq_iff_eq] using h2.1
        have hat : a.id = tid := by simpa [beq_iff_eq] using ha
        have : a.id ∈ l.map (fun x => x.id) := by
          rw [hat, ← hut]
          exact List.mem_map.mpr ⟨u, hu, rfl⟩
        exact absurd this hnd.1
    · rw [List.find?_cons_of_neg (p := fun v : PendingEntry => v.id == tid)
        l ha]
      have hpa : ¬ ((a.id == tid && a.user_id == uid) : Bool) = true := by
        simp only [Bool.and_eq_true, not_and]
        intro hc
        exact absurd hc (by simpa using ha)
      rw [List.find?_cons_of_neg
        (p := fun v : PendingEntry => v.id == tid && v.user_id == uid)
        l hpa] at hf
      exact ih hnd.2 hf

/-- Outcome dichotomy of `accept` on an owned pending entry: either the
call fails and the store is returned unchanged, or it succeeds with a
result record carrying the entry's id and category and the entry flipped
to accepted. -/
theorem accept_outcome (db : DB) (uid tid : Nat) (now : Int)
    (u : PendingEntry) (hf : findOwned db uid tid = some u)
    (hst : u.status = UpdateStatus.pending) :
    (∃ e : HTTPError, accept_pending_update db uid tid now = (db, .error e)) ∨
    (∃ db2 cid, accept_pending_update db uid tid now =
        (db2, .ok ⟨tid, u.category, cid, true⟩) ∧
      statusOf db2 tid = some UpdateStatus.accepted) := by
  have hget : get_pending_update_by_id db uid tid = .ok u :=
    (get_ok_iff db uid tid u).mpr hf
  have hpred := List.find?_some hf
  have huid : u.id = tid := by
    have := (Bool.and_eq_true _ _).mp hpred
    simpa [beq_iff_eq] using this.1
  have hmem : u ∈ db.pending := List.mem_of_find?_eq_some hf
  unfold accept_pending_update
  rw [hget]
  dsimp only
  rw [if_neg (by simp [hst])]
  cases hp : promote db uid u now with
  | error e => exact Or.inl ⟨_, rfl⟩
  | ok p =>
    obtain ⟨db1, cid⟩ := p
    right
    refine ⟨_, cid, rfl, ?_⟩
    unfold statusOf setEntry
    dsimp only
    rw [promote_ok_pending db uid u now db1 cid hp]
    rw [find?_setList_id db.pending tid
      (fun v => { v with status := UpdateStatus.accepted }) (fun v hv => hv)]
    have hsome : ∃ x, db.pending.find? (fun v => v.id == tid) = some x := by
      have : (db.pending.find? (fun v => v.id == tid)).isSome = true :=
        List.find?_isSome.mpr ⟨u, hmem, by simp [beq_iff_eq, huid]⟩
      exact Option.isSome_iff_exists.mp this
    rcases hsome with ⟨x, hx⟩
    rw [hx]
    rfl

/-- The accept loop leaves the status of any id outside its work list
unchanged. -/
theorem acceptLoop_statusOf_ne (uid : Nat) (now : Int) :
    ∀ (entries : List PendingEntry) (db : DB) (j : Nat),
    j ∉ entries.map (·.id) →
    statusOf (acceptLoop db uid now entries).1 j = statusOf db j := by
  intro entries
  induction entries with
  | nil => intro db j _; rfl
  | cons u rest ih =>
    intro db j hj
    rw [List.map_cons, List.mem_cons] at hj
    push_neg at hj
    unfold acceptLoop
    dsimp only
    rw [ih _ j hj.2]
    exact accept_statusOf_ne db uid u.id now j hj.1

/-- The accept loop never changes the set of entry ids. -/
theorem acceptLoop_ids (uid : Nat) (now : Int) :
    ∀ (entries : List PendingEntry) (db : DB),
    ((acceptLoop db uid now entries).1.pending.map (·.id)) =
      db.pending.map (·.id) := by
  intro entries
  induction entries with
  | nil => intro db; rfl
  | cons u rest ih =>
    intro db
    unfold acceptLoop
    dsimp only
    rw [ih]
    exact accept_ids db uid u.id now

/-- The relation between one batch-result record and the entry it reports
on: same id and category, `success` exactly when a created id is present,
`error` exactly on failure. -/
def ReportsOn (b : BatchResult) (v : PendingEntry) : Prop :=
  b.pending_update_id = v.id ∧ b.category = v.category ∧
  (b.success = true ↔ b.created_item_id.isSome = true) ∧
  (b.success = false ↔ b.error.isSome = true)

/-- Per-entry specification of the accept loop: the result list reports on
the work list entrywise (in order, hence also one result per entry), and
afterwards every successful entry is recorded accepted while every failed
entry is still pending. -/
theorem acceptLoop_spec (uid : Nat) (now : Int) :
    ∀ (entries : List PendingEntry) (db : DB),
    (db.pending.map (·.id)).Nodup →
    (entries.map (·.id)).Nodup →
    (∀ u ∈ entries, findOwned db uid u.id = some u ∧
      u.status = UpdateStatus.pending) →
    (List.Forall₂ ReportsOn (acceptLoop db uid now entries).2 entries ∧
     (∀ b ∈ (acceptLoop db uid now entries).2,
        (b.success = true →
          statusOf (acceptLoop db uid now entries).1 b.pending_update_id =
            some UpdateStatus.accepted) ∧
        (b.success = false →
          statusOf (acceptLoop db uid now entries).1 b.pending_update_id =
            some UpdateStatus.pending))) := by
  intro entries
  induction entries with
  | nil =>
    intro db _ _ _
    refine ⟨List.Forall₂.nil, ?_⟩
    intro b hb
    simp [acceptLoop] at hb
  | cons u rest ih =>
    intro db hnodup hidnd hinv
    have hu := hinv u (List.mem_cons_self u rest)
    have hidnd2 := hidnd
    rw [List.map_cons, List.nodup_cons] at hidnd2
    have hunotin : u.id ∉ rest.map (·.id) := hidnd2.1
    rcases accept_outcome db uid u.id now u hu.1 hu.2 with
      ⟨e, he⟩ | ⟨db2, cid, hok, hstat⟩
    · -- promotion failed for the head: store unchanged
      have hrest := ih db hnodup hidnd2.2
        (fun v hv => hinv v (List.mem_cons_of_mem _ hv))
      unfold acceptLoop
      simp only []
      rw [he]
      dsimp only
      constructor
      · exact List.Forall₂.cons ⟨rfl, rfl, by simp, by simp⟩ hrest.1
      · intro b hb
        rcases List.mem_cons.mp hb with hb | hb
        · subst hb
          refine ⟨?_, ?_⟩
          · intro hcontra
            simp at hcontra
          · intro _
            dsimp only
            rw [acceptLoop_statusOf_ne uid now rest db u.id hunotin]
            unfold statusOf
            rw [find?_id_of_findOwned db.pending uid u.id u hnodup hu.1]
            simp [hu.2]
        · exact hrest.2 b hb
    · -- promotion succeeded for the head
      have hnodup2 : (db2.pending.map (·.id)).Nodup := by
        have hids := accept_ids db uid u.id now
        rw [hok] at hids
        dsimp only at hids
        rw [hids]
        exact hnodup
      have hinv2 : ∀ v ∈ rest, findOwned db2 uid v.id = some v ∧
          v.status = UpdateStatus.pending := by
        intro v hv
        have hvne : v.id ≠ u.id := by
          intro hvu
          exact hunotin (hvu ▸ List.mem_map.mpr ⟨v, hv, rfl⟩)
        have hpres := accept_findOwned_ne db uid u.id now uid v.id hvne
        rw [hok] at hpres
        dsimp only at hpres
        rw [hpres]
        exact hinv v (List.mem_cons_of_mem _ hv)
      have hrest := ih db2 hnodup2 hidnd2.2 hinv2
      unfold acceptLoop
      simp only []
      rw [hok]
      dsimp only
      constructor
      · exact List.Forall₂.cons ⟨rfl, rfl, by simp, by simp⟩ hrest.1
      · intro b hb
        rcases List.mem_cons.mp hb with hb | hb
        · subst hb
          refine ⟨?_, ?_⟩
          · intro _
            dsimp only
            rw [acceptLoop_statusOf_ne uid now rest db2 u.id hunotin]
            exact hstat
          · intro hcontra
            simp at hcontra
        · exact hrest.2 b hb

/-- With duplicate-free ids, a member entry of the table is exactly what
the owner lookup for its id finds. -/
theorem findOwned_of_mem (l : List PendingEntry) (uid : Nat)
    (u : PendingEntry) (hnodup : (l.map (·.id)).Nodup) (hmem : u ∈ l)
    (huser : u.user_id = uid) :
    l.find? (fun v => v.id == u.id && v.user_id == uid) = some u := by
  induction l with
  | nil => simp at hmem
  | cons a l ih =>
    rw [List.map_cons, List.nodup_cons] at hnodup
    rcases List.mem_cons.mp hmem with h | h
    · subst h
      rw [List.find?_cons_of_pos
        (p := fun v : PendingEntry => v.id == u.id && v.user_id == uid)
        l (by simp [huser])]
    · have hane : (a.id == u.id) = false := by
        rw [beq_eq_false_iff_ne]
        intro hc
        exact hnodup.1 (hc ▸ List.mem_map.mpr ⟨u, h, rfl⟩)
      rw [List.find?_cons_of_neg
        (p := fun v : PendingEntry => v.id == u.id && v.user_id == uid)
        l (by simp [hane])]
      exact ih hnodup.2 h

/-- C4: `accept_all_pending` never raises and is best-effort: it selects
exactly the owner's pending entries (optionally session-scoped), produces
one result record per selected entry — in order, carrying the entry's id
and category, with `success` exactly when a created id is present and an
`error` field exactly on failure — and processes entries in isolation:
afterwards every successful entry is accepted and every failed entry is
still pending, so one failure neither aborts the batch nor rolls back
another entry's success. -/
theorem accept_all_batch (db : DB) (uid : Nat) (sid : Option Nat)
    (now : Int) (hnodup : (db.pending.map (·.id)).Nodup) :
    (∀ v : PendingEntry, v ∈ selectPending db uid sid ↔
      (v ∈ db.pending ∧ v.user_id = uid ∧
        v.status = UpdateStatus.pending ∧
        (∀ s, sid = some s → v.session_id = some s))) ∧
    List.Forall₂ ReportsOn (accept_all_pending db uid sid now).2
      (selectPending db uid sid) ∧
    (accept_all_pending db uid sid now).2.length =
      (selectPending db uid sid).length ∧
    (∀ b ∈ (accept_all_pending db uid sid now).2,
      (b.success = true →
        statusOf (accept_all_pending db uid sid now).1 b.pending_update_id =
          some UpdateStatus.accepted) ∧
      (b.success = false →
        statusOf (accept_all_pending db uid sid now).1 b.pending_update_id =
          some UpdateStatus.pending)) := by
  have hselchar : ∀ v : PendingEntry, v ∈ selectPending db uid sid ↔
      (v ∈ db.pending ∧ v.user_id = uid ∧
        v.status = UpdateStatus.pending ∧
        (∀ s, sid = some s → v.session_id = some s)) := by
    intro v
    unfold selectPending
    rw [List.mem_filter]
    cases sid with
    | none => simp [beq_iff_eq, and_assoc]
    | some s => simp [beq_iff_eq, and_assoc]
  have hsel : ∀ u ∈ selectPending db uid sid,
      findOwned db uid u.id = some u ∧
      u.status = UpdateStatus.pending := by
    intro u hu
    have hc := (hselchar u).mp hu
    exact ⟨findOwned_of_mem db.pending uid u hnodup hc.1 hc.2.1, hc.2.2.1⟩
  have hnd2 : ((selectPending db uid sid).map (·.id)).Nodup :=
    List.Nodup.sublist (List.Sublist.map _ (List.filter_sublist _)) hnodup
  have hloop := acceptLoop_spec uid now (selectPending db uid sid) db
    hnodup hnd2 hsel
  exact ⟨hselchar, hloop.1, hloop.1.length_eq, hloop.2⟩

/-- Witness: the batch over the three expense entries of `dbExp3` returns
one result per selected entry. -/
theorem accept_all_batch_witness :
    (accept_all_pending dbExp3 7 none 0).2.length =
      (selectPending dbExp3 7 none).length :=
  (accept_all_batch dbExp3 7 none 0 (by decide)).2.2.1

end PendingTheorems

section StrategyTheorems

open DailyUpdateInterviewerStrategy

/-- C8: if the language-model call raises, `execute` does not propagate
the failure: it returns the graceful fallback reply, no drafts, no
mentioned categories, `is_complete = false`, the diagnostic in `error`,
and the previously covered category set unchanged. -/
theorem execute_failure_graceful (msg : String) (covered : List String)
    (e : String) :
    (execute msg covered (.error e)).ai_response = fallbackReply ∧
    (execute msg covered (.error e)).draft_entries = [] ∧
    (execute msg covered (.error e)).categories_mentioned = [] ∧
    (execute msg covered (.error e)).is_complete = false ∧
    (execute msg covered (.error e)).error = some e ∧
    (∀ c, c ∈ (execute msg covered (.error e)).categories_covered ↔
      c ∈ covered) := by
  refine ⟨rfl, rfl, rfl, rfl, rfl, ?_⟩
  intro c
  simp [execute, List.mem_dedup]

/-- Witness: a failing model call on a concrete turn surfaces the
diagnostic and keeps the covered set. -/
theorem execute_failure_graceful_witness :
    (execute "hi" ["task"] (.error "boom")).error = some "boom" ∧
    ("task" ∈ (execute "hi" ["task"] (.error "boom")).categories_covered ↔
      "task" ∈ ["task"]) :=
  ⟨(execute_failure_graceful "hi" ["task"] "boom").2.2.2.2.1,
   (execute_failure_graceful "hi" ["task"] "boom").2.2.2.2.2 "task"⟩

/-- The task keyword set exactly as the specification lists it. -/
def spec_task_keywords : List String :=
  ["finish", "complete", "done", "work", "task", "project",
   "deadline", "submit", "deliver", "to-do", "assignment"]

/-- The expense keyword set exactly as the specification lists it. -/
def spec_expense_keywords : List String :=
  ["buy", "bought", "spend", "spent", "pay", "paid", "cost",
   "money", "price", "purchase", "lunch", "dinner", "coffee",
   "taxi", "grocery"]

/-- The event keyword set exactly as the specification lists it. -/
def spec_event_keywords : List String :=
  ["meet", "meeting", "appointment", "call", "lunch with",
   "dinner with", "party", "event", "visit", "doctor", "dentist"]

/-- The journal keyword set exactly as the specification lists it. -/
def spec_journal_keywords : List String :=
  ["feel", "feeling", "felt", "mood", "happy", "sad", "angry",
   "stressed", "anxious", "excited", "grateful", "tired", "rough",
   "amazing"]

/-- Counterexample to C9 as stated: the message "uber" puts expense in the
mentioned set although none of the spec-listed expense keywords occurs in
it (the code also matches the extra keywords todo, dollar, $, expense,
uber; coffee with, hangout, catch up; okay, great, terrible). -/
theorem detect_categories_not_spec_keywords :
    "expense" ∈ detect_categories "uber" ∧
    (spec_expense_keywords.any
      (fun kw => strContains (lowerStr "uber") kw)) = false := by
  decide

/-- C9 (amended): category-mention detection is case-insensitive substring
matching, but against the code's keyword lists (the spec's lists plus
todo; dollar, $, expense, uber; coffee with, hangout, catch up; okay,
great, terrible): a category is mentioned exactly when one of its coded
keywords occurs in the lowercased message, and nothing but the four
category tags is ever emitted. -/
theorem detect_categories_characterization (msg : String) :
    ("task" ∈ detect_categories msg ↔
      ∃ kw ∈ task_keywords, strContains (lowerStr msg) kw = true) ∧
    ("expense" ∈ detect_categories msg ↔
      ∃ kw ∈ expense_keywords, strContains (lowerStr msg) kw = true) ∧
    ("event" ∈ detect_categories msg ↔
      ∃ kw ∈ event_keywords, strContains (lowerStr msg) kw = true) ∧
    ("journal" ∈ detect_categories msg ↔
      ∃ kw ∈ journal_keywords, strContains (lowerStr msg) kw = true) ∧
    (∀ c ∈ detect_categories msg,
      c = "task" ∨ c = "expense" ∨ c = "event" ∨ c = "journal") := by
  unfold detect_categories
  by_cases h1 : task_keywords.any (fun kw => strContains (lowerStr msg) kw) <;>
    by_cases h2 : expense_keywords.any
      (fun kw => strContains (lowerStr msg) kw) <;>
    by_cases h3 : event_keywords.any
      (fun kw => strContains (lowerStr msg) kw) <;>
    by_cases h4 : journal_keywords.any
      (fun kw => strContains (lowerStr msg) kw) <;>
    simp_all [← List.any_eq_true] <;> tauto

/-- Witness: the characterization applied to a concrete message. -/
theorem detect_categories_characterization_witness :
    "expense" ∈ detect_categories "I took an Uber" ↔
      ∃ kw ∈ expense_keywords,
        strContains (lowerStr "I took an Uber") kw = true :=
  (detect_categories_characterization "I took an Uber").2.1

end StrategyTheorems
